import Mathlib

/-!
Verification development for `excelfinder.py`.

The Python source is shallowly embedded as executable Lean definitions:

* Scalar cell values (`PyVal`) are either strings or non-string scalars
  (e.g. numbers) carrying their Python `str()` rendering; `pyStr` is `str()`.
* Python exceptions are modelled with `Except PyErr`: `containerErr` stands
  for `zipfile.BadZipFile`, `manifestErr` for the `KeyError` /
  `FileNotFoundError` raised on a missing or malformed `xl/workbook.xml`,
  `typeErr` for the `TypeError` raised when line 46 iterates a
  single-sheet manifest (xmltodict yields a dict there, not a list),
  `readErr` for a failing `pd.read_excel`, and `attrErr` for the
  `AttributeError` raised by calling `.find` on a non-string value.
* The filesystem / pandas layer is abstracted into a `FileData` environment
  supplying, per file, the container state seen by `get_sheet_details` and
  the row contents seen by `pd.read_excel`; the `input()` prompt answer is a
  per-file string parameter.
* In-place mutation of the target list (`values_to_search.remove`) becomes
  explicit state passing; the `ExcelFile` dataclass is a structure whose
  field mutations become functional updates.
-/

/-- Boolean test that the first character list is a prefix of the second. -/
def isPrefixL : List Char → List Char → Bool
  | [], _ => true
  | _ :: _, [] => false
  | a :: as, b :: bs => a == b && isPrefixL as bs

/-- Boolean test that `pat` occurs as a contiguous run inside the second list. -/
def occursL (pat : List Char) : List Char → Bool
  | [] => isPrefixL pat []
  | c :: rest => isPrefixL pat (c :: rest) || occursL pat rest

/-- Embeds the Python test `s.find (target) != -1`: `target` is a
case-sensitive substring of `s`. -/
def strFind (s target : String) : Bool :=
  occursL target.data s.data

/-- A Python scalar as seen by the matcher: a genuine string, or a
non-string scalar (such as a number read from a cell) carrying its
`str()` rendering. -/
inductive PyVal where
  | str : String → PyVal
  | num : String → PyVal
deriving DecidableEq

/-- The Python `str()` conversion applied to a scalar. -/
def pyStr : PyVal → String
  | .str s => s
  | .num s => s

/-- Exceptions raisable by the embedded code. -/
inductive PyErr where
  | containerErr
  | manifestErr
  | typeErr
  | readErr
  | attrErr
deriving DecidableEq

/-- Embeds the inner helper `is_substring` of `match_values_in_files`
(lines 74-78): some element of `list_of_values` occurs in `col_val`. -/
def is_substring (col_val : String) (list_of_values : List String) : Bool :=
  list_of_values.any (fun val => strFind col_val val)

/-- Embeds Python `list.remove`: drop the first occurrence of `x`.
(In the embedded code every removed value is present at removal time,
so the `ValueError` branch of `list.remove` is unreachable.) -/
def removeFirst (x : String) : List String → List String
  | [] => []
  | y :: ys => if y == x then ys else y :: removeFirst x ys

/-- One iteration of the removal loop of `match_values_in_files`
(lines 84-87) for a single matched cell `file_value`.  Python evaluates
`file_value.find(x)` once per remaining target, so with an empty target
list nothing is evaluated; with a non-empty one, a non-string
`file_value` raises `AttributeError` (line 85 omits the `str()` that
line 81 applies). -/
def removeMatched (file_value : PyVal) : List String → Except PyErr (List String)
  | [] => .ok []
  | t :: ts =>
    match file_value with
    | .num _ => .error .attrErr
    | .str s =>
      let value_to_remove := (t :: ts).filter (fun x => strFind s x)
      .ok (value_to_remove.foldl (fun acc val => removeFirst val acc) (t :: ts))

/-- The `for file_value in matched_cells` loop of `match_values_in_files`,
threading the mutable target list. -/
def matchLoop : List PyVal → List String → Except PyErr (List String)
  | [], ts => .ok ts
  | fv :: rest, ts =>
    match removeMatched fv ts with
    | .error e => .error e
    | .ok ts1 => matchLoop rest ts1

/-- Embeds `match_values_in_files` (lines 72-89).  Returns the Python
return value (`some true` for `return True`, `none` for the implicit
`return None` when targets remain — the function has no `return False`)
together with the final state of the mutable `values_to_search` list. -/
def match_values_in_files (file_values : List PyVal) (values_to_search : List String) :
    Except PyErr (Option Bool × List String) :=
  let matched_cells := file_values.filter (fun x => is_substring (pyStr x) values_to_search)
  match matchLoop matched_cells values_to_search with
  | .error e => .error e
  | .ok ts => .ok (if ts.isEmpty then some true else none, ts)

/-- One `<sheet .../>` entry of `xl/workbook.xml` as produced by
`xmltodict`: its attribute dictionary, attribute names carrying the `@`
marker exactly when the producer wrote them that way. -/
structure XmlSheet where
  attrs : List (String × String)
deriving DecidableEq

/-- What `xmltodict.parse` yields under `workbook/sheets/sheet`: when
the `<sheet>` element occurs exactly once, a single attribute dictionary
(`one`); when it repeats, a list of them (`many`).  `xmltodict` is not
given `force_list`, so `many` arises only for two or more entries. -/
inductive SheetListing where
  | one : XmlSheet → SheetListing
  | many : List XmlSheet → SheetListing
deriving DecidableEq

/-- The state of one candidate file's compressed container, as observed
by `get_sheet_details`: not a zip at all, a zip without a readable
`xl/workbook.xml`, or a parsed manifest that may (`some`) or may not
(`none`) contain the `workbook/sheets/sheet` entry. -/
inductive ContainerState where
  | notZip
  | missingManifest
  | manifest : Option SheetListing → ContainerState
deriving DecidableEq

/-- Embeds lines 47-50: build `sheet_details` for one entry by indexing
`sheet['@sheetId']` and then `sheet['@name']`; a missing key raises
`KeyError` (modelled `manifestErr`).  The unprefixed `sheetId` / `name`
forms mentioned in the source comments are never consulted. -/
def sheetEntryName (sheet : XmlSheet) : Except PyErr String :=
  match List.lookup "@sheetId" sheet.attrs with
  | none => .error .manifestErr
  | some _ =>
    match List.lookup "@name" sheet.attrs with
    | none => .error .manifestErr
    | some n => .ok n

/-- The `for sheet in dictionary […]` loop of lines 46-51, collecting the
names in document order and aborting on the first `KeyError`. -/
def sheetsFold : List XmlSheet → Except PyErr (List String)
  | [] => .ok []
  | s :: rest =>
    match sheetEntryName s with
    | .error e => .error e
    | .ok n =>
      match sheetsFold rest with
      | .error e => .error e
      | .ok ns => .ok (n :: ns)

/-- Embeds `get_sheet_details` (lines 24-55).  The second component
records whether the temporary extraction directory (`temp_excelfinder`,
created unconditionally at line 34) still exists when control leaves the
function: the `shutil.rmtree` at line 54 runs only on the success path,
so every raised exception leaves the directory behind.

On a single-sheet manifest the `for sheet in …` loop at line 46 iterates
the one attribute dictionary itself, yielding its attribute-key strings,
and `sheet['@sheetId']` at line 48 indexes a string with a string:
`TypeError`.  (For the degenerate attribute-less `<sheet/>` xmltodict
yields `None`, whose iteration raises `TypeError` as well, so that
branch raises uniformly.)  Only the `many` listing is walked entry by
entry. -/
def get_sheet_details (c : ContainerState) : Except PyErr (List String) × Bool :=
  match c with
  | .notZip => (.error .containerErr, true)
  | .missingManifest => (.error .manifestErr, true)
  | .manifest none => (.error .manifestErr, true)
  | .manifest (some (.one _)) => (.error .typeErr, true)
  | .manifest (some (.many sheets)) =>
    match sheetsFold sheets with
    | .error e => (.error e, true)
    | .ok names => (.ok names, false)

/-- Embeds the `ExcelFile` dataclass (lines 15-22); `size` is the file
size in megabytes. -/
structure ExcelFile where
  id : Nat
  path : String
  size : ℚ
  are_values_found : Bool := false
  file_too_big : Bool := false
  sheet_names : List String := []
deriving DecidableEq

/-- The external world for one candidate file: what `get_sheet_details`
observes in its container, and the rows `pd.read_excel` yields per sheet
name (or the `readErr` it raises). -/
structure FileData where
  container : ContainerState
  rows : String → Except PyErr (List (List PyVal))

/-- The `for column in df.values` loop of `look_for_values_in_file`
(lines 66-68): match each row against the shared mutable target list,
returning early on a truthy match result. -/
def scanRows : List (List PyVal) → List String → Except PyErr (Bool × List String)
  | [], vals => .ok (false, vals)
  | row :: rest, vals =>
    match match_values_in_files row vals with
    | .error e => .error e
    | .ok (some true, vals1) => .ok (true, vals1)
    | .ok (_, vals1) => scanRows rest vals1

/-- Embeds `look_for_values_in_file` (lines 58-69) over the given sheet
names.  The second component counts the `pd.read_excel` invocations
(cell reads) performed. -/
def look_for_values_in_file (rows : String → Except PyErr (List (List PyVal))) :
    List String → List String → Except PyErr Bool × Nat
  | [], _ => (.ok false, 0)
  | sheet :: rest, vals =>
    match rows sheet with
    | .error e => (.error e, 1)
    | .ok dfRows =>
      match scanRows dfRows vals with
      | .error e => (.error e, 1)
      | .ok (true, _) => (.ok true, 1)
      | .ok (false, vals1) =>
        let r := look_for_values_in_file rows rest vals1
        (r.1, r.2 + 1)

instance {ε α : Type} [DecidableEq ε] [DecidableEq α] : DecidableEq (Except ε α)
  | .error e, .error f =>
    if h : e = f then isTrue (congrArg Except.error h)
    else isFalse (fun hh => h (Except.error.inj hh))
  | .error _, .ok _ => isFalse (fun hh => Except.noConfusion hh)
  | .ok _, .error _ => isFalse (fun hh => Except.noConfusion hh)
  | .ok a, .ok b =>
    if h : a = b then isTrue (congrArg Except.ok h)
    else isFalse (fun hh => h (Except.ok.inj hh))

/-- Outcome of `are_all_cells_in_file`: its return value (or the
exception escaping it), the possibly-updated `ExcelFile`, whether the
confirmation prompt was surfaced, and how many cell reads ran. -/
structure ScanResult where
  result : Except PyErr Bool
  file : ExcelFile
  prompted : Bool
  reads : Nat
deriving DecidableEq

/-- Embeds `are_all_cells_in_file` (lines 91-113): above the size
threshold the operator is prompted and only the exact answer `"y"`
proceeds; any other answer sets `file_too_big` and returns `False`
without reading any cells. -/
def are_all_cells_in_file (rows : String → Except PyErr (List (List PyVal)))
    (response : String) (file : ExcelFile) (cells_to_search : List String)
    (size_threshold : ℚ) : ScanResult :=
  if file.size > size_threshold then
    if response == "y" then
      let r := look_for_values_in_file rows file.sheet_names cells_to_search
      ⟨r.1, file, true, r.2⟩
    else
      ⟨.ok false, { file with file_too_big := true }, true, 0⟩
  else
    let r := look_for_values_in_file rows file.sheet_names cells_to_search
    ⟨r.1, file, false, r.2⟩

/-- Outcome of the `find_values` loop body for one candidate file:
the escaping exception if one was raised, the file record as mutated so
far, whether the size-gate prompt appeared, and the cell reads done. -/
structure StepResult where
  err : Option PyErr
  file : ExcelFile
  prompted : Bool
  reads : Nat
deriving DecidableEq

/-- The body of the `for excel_file in excel_files` loop of `find_values`
(lines 121-130) for one file: take a fresh copy of the target list, fetch
the sheet names, match against them, and fall through to the size-gated
cell search only when targets remain and cell search was requested. -/
def processFile (data : FileData) (response : String) (search_cells : Bool)
    (values_to_search : List String) (size_threshold : ℚ)
    (excel_file : ExcelFile) : StepResult :=
  match (get_sheet_details data.container).1 with
  | .error e => ⟨some e, excel_file, false, 0⟩
  | .ok names =>
    let f1 := { excel_file with sheet_names := names }
    match match_values_in_files (names.map PyVal.str) values_to_search with
    | .error e => ⟨some e, f1, false, 0⟩
    | .ok (_, temp1) =>
      if !temp1.isEmpty && search_cells then
        let out := are_all_cells_in_file data.rows response f1 temp1 size_threshold
        match out.result with
        | .error e => ⟨some e, out.file, out.prompted, out.reads⟩
        | .ok b => ⟨none, { out.file with are_values_found := b }, out.prompted, out.reads⟩
      else if temp1.isEmpty then
        ⟨none, { f1 with are_values_found := true }, false, 0⟩
      else
        ⟨none, f1, false, 0⟩

/-- Embeds `find_values` (lines 116-130) over a list of candidate files.
`world` supplies each file's container and cell data, `responses` the
operator's prompt answer per file.  There is no exception handler in the
source, so a raised exception aborts the loop: the result pairs the file
list (processed prefix, then the failing file as mutated so far, then
the untouched remainder) with the escaping exception, if any. -/
def find_values (world : String → FileData) (responses : String → String)
    (search_cells : Bool) (values_to_search : List String) (size_threshold : ℚ) :
    List ExcelFile → List ExcelFile × Option PyErr
  | [] => ([], none)
  | f :: rest =>
    let st := processFile (world f.path) (responses f.path) search_cells
      values_to_search size_threshold f
    match st.err with
    | some e => (st.file :: rest, some e)
    | none =>
      let r := find_values world responses search_cells values_to_search size_threshold rest
      (st.file :: r.1, r.2)

/-! Helper lemmas about the substring matcher. -/

theorem foldl_removeFirst_cons (L : List String) (a : String) (acc : List String)
    (h : ∀ v ∈ L, (a == v) = false) :
    L.foldl (fun acc val => removeFirst val acc) (a :: acc)
      = a :: L.foldl (fun acc val => removeFirst val acc) acc := by
  induction L generalizing acc with
  | nil => rfl
  | cons v L ih =>
    have hv : (a == v) = false := h v (List.mem_cons_self v L)
    simp only [List.foldl_cons]
    rw [show removeFirst v (a :: acc) = a :: removeFirst v acc from by
      simp [removeFirst, hv]]
    exact ih (removeFirst v acc) (fun w hw => h w (List.mem_cons_of_mem v hw))

theorem foldl_removeFirst_filter (p : String → Bool) (ts : List String) :
    (ts.filter p).foldl (fun acc val => removeFirst val acc) ts
      = ts.filter (fun x => !(p x)) := by
  induction ts with
  | nil => rfl
  | cons a ts ih =>
    cases hp : p a with
    | true =>
      have h1 : (a :: ts).filter p = a :: ts.filter p := by simp [List.filter_cons, hp]
      have h2 : (a :: ts).filter (fun x => !(p x)) = ts.filter (fun x => !(p x)) := by
        simp [List.filter_cons, hp]
      rw [h1, h2, List.foldl_cons]
      rw [show removeFirst a (a :: ts) = ts from by simp [removeFirst]]
      exact ih
    | false =>
      have h1 : (a :: ts).filter p = ts.filter p := by simp [List.filter_cons, hp]
      have h2 : (a :: ts).filter (fun x => !(p x)) = a :: ts.filter (fun x => !(p x)) := by
        simp [List.filter_cons, hp]
      rw [h1, h2]
      rw [foldl_removeFirst_cons (ts.filter p) a ts ?hne]
      case hne =>
        intro v hv
        have hpv : p v = true := (List.mem_filter.mp hv).2
        refine beq_eq_false_iff_ne.mpr ?_
        intro hav
        rw [← hav, hp] at hpv
        exact Bool.noConfusion hpv
      rw [ih]

theorem removeMatched_str (s : String) (ts : List String) :
    removeMatched (PyVal.str s) ts = .ok (ts.filter (fun t => !(strFind s t))) := by
  cases ts with
  | nil => rfl
  | cons t ts =>
    simp only [removeMatched]
    rw [foldl_removeFirst_filter (fun x => strFind s x) (t :: ts)]

theorem matchLoop_nil_state (cells : List PyVal) : matchLoop cells [] = .ok [] := by
  induction cells with
  | nil => rfl
  | cons c rest ih =>
    simp only [matchLoop, removeMatched]
    exact ih

theorem matchLoop_str (cells ts : List String) :
    matchLoop (cells.map PyVal.str) ts
      = .ok (ts.filter (fun t => !(cells.any (fun c => strFind c t)))) := by
  induction cells generalizing ts with
  | nil => simp [matchLoop, List.filter_true]
  | cons c cells ih =>
    simp only [List.map_cons, matchLoop, removeMatched_str]
    rw [ih, List.filter_filter]
    refine congrArg Except.ok (List.filter_congr fun t _ => ?_)
    simp [List.any_cons, Bool.not_or, Bool.and_comm]

theorem pyStr_str (s : String) : pyStr (PyVal.str s) = s := rfl

theorem pyStr_num (s : String) : pyStr (PyVal.num s) = s := rfl

theorem filter_map_str (p : String → Bool) (V : List String) :
    (V.map PyVal.str).filter (fun x => p (pyStr x)) = (V.filter p).map PyVal.str := by
  induction V with
  | nil => rfl
  | cons v V ih =>
    cases hv : p v with
    | true => simp [List.filter_cons, pyStr_str, hv, ih]
    | false => simp [List.filter_cons, pyStr_str, hv, ih]

theorem any_filter_sub (V T : List String) (t : String) (ht : t ∈ T) :
    ((V.filter (fun v => is_substring v T)).any (fun v => strFind v t))
      = (V.any (fun v => strFind v t)) := by
  refine Bool.eq_iff_iff.mpr ?_
  simp only [List.any_eq_true, List.mem_filter, is_substring]
  constructor
  · rintro ⟨v, ⟨hvV, _⟩, hf⟩
    exact ⟨v, hvV, hf⟩
  · rintro ⟨v, hvV, hf⟩
    exact ⟨v, ⟨hvV, ⟨t, ht, hf⟩⟩, hf⟩

theorem match_values_str (V T : List String) :
    match_values_in_files (V.map PyVal.str) T
      = .ok (if (T.filter (fun t => !(V.any (fun v => strFind v t)))).isEmpty
               then some true else none,
             T.filter (fun t => !(V.any (fun v => strFind v t)))) := by
  have hfc : T.filter
        (fun t => !((V.filter (fun v => is_substring v T)).any (fun c => strFind c t)))
      = T.filter (fun t => !(V.any (fun v => strFind v t))) :=
    List.filter_congr (fun t ht => by rw [any_filter_sub V T t ht])
  simp only [match_values_in_files]
  rw [show List.filter (fun x => is_substring (pyStr x) T) (List.map PyVal.str V)
      = List.map PyVal.str (List.filter (fun v => is_substring v T) V)
    from filter_map_str (fun v => is_substring v T) V, matchLoop_str, hfc]

theorem matchLoop_ok_nil (cells : List PyVal) (ts : List String)
    (h : matchLoop cells ts = .ok []) :
    ∀ t ∈ ts, ∃ c ∈ cells, strFind (pyStr c) t = true := by
  induction cells generalizing ts with
  | nil =>
    simp only [matchLoop] at h
    have hts : ts = [] := Except.ok.inj h
    subst hts
    intro t ht
    exact absurd ht (List.not_mem_nil t)
  | cons c rest ih =>
    intro t ht
    cases hts : ts with
    | nil =>
      subst hts
      exact absurd ht (List.not_mem_nil t)
    | cons a ts0 =>
      subst hts
      cases c with
      | num s =>
        simp only [matchLoop, removeMatched] at h
        exact absurd h (by simp)
      | str s =>
        simp only [matchLoop, removeMatched_str] at h
        cases hf : strFind s t with
        | true =>
          refine ⟨PyVal.str s, List.mem_cons_self _ _, ?_⟩
          rw [pyStr_str]
          exact hf
        | false =>
          have htf : t ∈ (a :: ts0).filter (fun x => !(strFind s x)) :=
            List.mem_filter.mpr ⟨ht, by simp [hf]⟩
          obtain ⟨c', hc', hfind⟩ := ih _ h t htf
          exact ⟨c', List.mem_cons_of_mem _ hc', hfind⟩

theorem matchLoop_ok_mem (cells : List PyVal) (ts ts1 : List String)
    (h : matchLoop cells ts = .ok ts1) :
    ∀ t ∈ ts1, t ∈ ts ∧ ∀ c ∈ cells, strFind (pyStr c) t = false := by
  induction cells generalizing ts with
  | nil =>
    simp only [matchLoop] at h
    have hts : ts = ts1 := Except.ok.inj h
    subst hts
    intro t ht
    exact ⟨ht, fun c hc => absurd hc (List.not_mem_nil c)⟩
  | cons c rest ih =>
    cases hts : ts with
    | nil =>
      subst hts
      rw [matchLoop_nil_state] at h
      have h1 : ts1 = [] := (Except.ok.inj h).symm
      subst h1
      intro t ht
      exact absurd ht (List.not_mem_nil t)
    | cons a ts0 =>
      subst hts
      cases c with
      | num s =>
        simp only [matchLoop, removeMatched] at h
        exact absurd h (by simp)
      | str s =>
        simp only [matchLoop, removeMatched_str] at h
        intro t ht
        obtain ⟨hmem, hall⟩ := ih _ h t ht
        have h3 := List.mem_filter.mp hmem
        refine ⟨h3.1, ?_⟩
        intro c hc
        rcases List.mem_cons.mp hc with hc1 | hc2
        · subst hc1
          rw [pyStr_str]
          simpa using h3.2
        · exact hall c hc2

theorem match_ok_true_found (V : List PyVal) (T : List String) (ts1 : List String)
    (h : match_values_in_files V T = .ok (some true, ts1)) :
    ∀ t ∈ T, ∃ v ∈ V, strFind (pyStr v) t = true := by
  simp only [match_values_in_files] at h
  cases hml : matchLoop (V.filter fun x => is_substring (pyStr x) T) T with
  | error e =>
    rw [hml] at h
    exact absurd h (by simp)
  | ok ts2 =>
    rw [hml] at h
    have h2 := Except.ok.inj h
    have hfst := congrArg Prod.fst h2
    have hts2 : ts2 = [] := by
      cases hemp : ts2.isEmpty with
      | true => exact List.isEmpty_iff.mp hemp
      | false =>
        rw [hemp] at hfst
        exact absurd hfst (by simp)
    subst hts2
    intro t ht
    obtain ⟨c, hc, hf⟩ := matchLoop_ok_nil _ _ hml t ht
    exact ⟨c, (List.mem_filter.mp hc).1, hf⟩

theorem match_all_found_ok (V : List PyVal) (T : List String) (r : Option Bool)
    (ts1 : List String) (h : match_values_in_files V T = .ok (r, ts1))
    (hall : ∀ t ∈ T, ∃ v ∈ V, strFind (pyStr v) t = true) :
    r = some true ∧ ts1 = [] := by
  simp only [match_values_in_files] at h
  cases hml : matchLoop (V.filter fun x => is_substring (pyStr x) T) T with
  | error e =>
    rw [hml] at h
    exact absurd h (by simp)
  | ok ts2 =>
    rw [hml] at h
    have h2 := Except.ok.inj h
    have hsnd : ts2 = ts1 := congrArg Prod.snd h2
    have hts2 : ts2 = [] := by
      by_contra hne
      obtain ⟨t, ht⟩ := List.exists_mem_of_ne_nil ts2 hne
      obtain ⟨hmem, hnone⟩ := matchLoop_ok_mem _ _ _ hml t ht
      obtain ⟨v, hv, hf⟩ := hall t hmem
      have hvmatched : v ∈ V.filter (fun x => is_substring (pyStr x) T) := by
        refine List.mem_filter.mpr ⟨hv, ?_⟩
        simp only [is_substring, List.any_eq_true]
        exact ⟨t, hmem, hf⟩
      have hcontra := hnone v hvmatched
      rw [hf] at hcontra
      exact Bool.noConfusion hcontra
    subst hts2
    have hfst := congrArg Prod.fst h2
    refine ⟨?_, hsnd.symm⟩
    simpa using hfst.symm

/-! Claim theorems. -/

/-- C1 (counterexample to the claim as stated): on an empty observed
collection with remaining target `"a"`, `match_values_in_files` returns
`None` (here `none`), not the boolean `False`; and on a non-string
observed value whose string form contains the target, it raises
`AttributeError` instead of returning a boolean at all. -/
theorem C1_counterexample :
    match_values_in_files [] ["a"] = .ok (none, ["a"])
  ∧ (none : Option Bool) ≠ some false
  ∧ match_values_in_files [PyVal.num "42.5"] ["42"] = .error .attrErr :=
  ⟨rfl, by decide, rfl⟩

/-- C1 (amended): for string-valued observed collections,
`match_values_in_files` returns `True` exactly when every target is a
case-sensitive substring of some observed value; otherwise it completes
returning `None` (not `False`), with exactly the satisfied targets
removed from the working target list. -/
theorem C1_match_iff_all_found (V T : List String) :
    (match_values_in_files (V.map PyVal.str) T = .ok (some true, []) ↔
      ∀ t ∈ T, ∃ v ∈ V, strFind v t = true)
  ∧ ((¬ ∀ t ∈ T, ∃ v ∈ V, strFind v t = true) →
      match_values_in_files (V.map PyVal.str) T
        = .ok (none, T.filter (fun t => !(V.any (fun v => strFind v t))))) := by
  have hms := match_values_str V T
  have hFiff : (T.filter (fun t => !(V.any (fun v => strFind v t)))) = [] ↔
      ∀ t ∈ T, ∃ v ∈ V, strFind v t = true := by
    rw [List.filter_eq_nil_iff]
    constructor
    · intro h t ht
      have h2 := h t ht
      have h3 : V.any (fun v => strFind v t) = true := by
        cases hb : V.any (fun v => strFind v t) with
        | true => rfl
        | false => exact absurd (by simp [hb]) h2
      obtain ⟨v, hv, hf⟩ := List.any_eq_true.mp h3
      exact ⟨v, hv, hf⟩
    · intro h t ht
      obtain ⟨v, hv, hf⟩ := h t ht
      have h2 : V.any (fun v => strFind v t) = true := List.any_eq_true.mpr ⟨v, hv, hf⟩
      simp [h2]
  constructor
  · constructor
    · intro h
      rw [hms] at h
      have h2 := congrArg Prod.snd (Except.ok.inj h)
      exact hFiff.mp h2
    · intro h
      have hF := hFiff.mpr h
      rw [hms, hF]
      simp
  · intro h
    have hF : (T.filter (fun t => !(V.any (fun v => strFind v t)))) ≠ [] :=
      fun hc => h (hFiff.mp hc)
    rw [hms]
    have hemp : (T.filter (fun t => !(V.any (fun v => strFind v t)))).isEmpty = false := by
      cases hb : (T.filter (fun t => !(V.any (fun v => strFind v t)))).isEmpty with
      | true => exact absurd (List.isEmpty_iff.mp hb) hF
      | false => rfl
    rw [hemp]
    simp

/-- C1 (witness): a concrete run where the amended characterization
applies, all targets being found. -/
theorem C1_witness :
    match_values_in_files [PyVal.str "ab"] ["a"] = .ok (some true, []) :=
  (C1_match_iff_all_found ["ab"] ["a"]).1.mpr (by decide)

/-- C9: for a fixed target list, removing one observed value (by index)
can never turn the match outcome from non-true into true: whenever both
the original and the reduced run complete, a true result on the reduced
collection forces a true result on the original one. -/
theorem C9_monotone (V : List PyVal) (T : List String) (i : Nat)
    (r rE : Option Bool × List String)
    (hV : match_values_in_files V T = .ok r)
    (hVE : match_values_in_files (V.eraseIdx i) T = .ok rE)
    (htrue : rE.1 = some true) : r.1 = some true := by
  obtain ⟨r1, ts1⟩ := r
  obtain ⟨rE1, tsE⟩ := rE
  simp only at htrue ⊢
  subst htrue
  have hall := match_ok_true_found _ _ _ hVE
  have hall2 : ∀ t ∈ T, ∃ v ∈ V, strFind (pyStr v) t = true := by
    intro t ht
    obtain ⟨v, hv, hf⟩ := hall t ht
    exact ⟨v, (List.eraseIdx_sublist V i).subset hv, hf⟩
  exact (match_all_found_ok _ _ _ _ hV hall2).1

/-- C9 (witness): the monotonicity theorem applied at a concrete
collection and index. -/
theorem C9_witness : (some true : Option Bool) = some true :=
  C9_monotone [PyVal.str "ab"] ["a"] 1 (some true, []) (some true, [])
    (by decide) (by decide) (by decide)

/-- C10: whenever `match_values_in_files` completes, it returns `True`
exactly on an emptied target list and the non-boolean falsy `None`
(never the boolean `False`) when targets remain. -/
theorem C10_returns_none_not_false (V : List PyVal) (T : List String)
    (r : Option Bool) (ts : List String)
    (h : match_values_in_files V T = .ok (r, ts)) :
    (ts = [] → r = some true) ∧ (ts ≠ [] → r = none) ∧ r ≠ some false := by
  simp only [match_values_in_files] at h
  cases hml : matchLoop (V.filter fun x => is_substring (pyStr x) T) T with
  | error e =>
    rw [hml] at h
    exact absurd h (by simp)
  | ok ts2 =>
    rw [hml] at h
    have h2 := Except.ok.inj h
    have hfst : (if ts2.isEmpty then some true else none) = r := congrArg Prod.fst h2
    have hsnd : ts2 = ts := congrArg Prod.snd h2
    subst hsnd
    subst hfst
    cases ts2 with
    | nil => simp
    | cons a ts0 => simp

/-- C10 (witness): concrete completed runs, one returning `True` on an
emptied list and one returning `None` with targets remaining. -/
theorem C10_witness :
    (some true : Option Bool) = some true ∧ (none : Option Bool) = none :=
  ⟨(C10_returns_none_not_false [PyVal.str "ab"] ["a"] (some true) [] rfl).1 rfl,
   (C10_returns_none_not_false [] ["a"] none ["a"] rfl).2.1 (by decide)⟩

/-- C2: when the per-file search reaches the size gate (sheet names
fetched, targets remaining, cell search requested), the confirmation
prompt is surfaced exactly when the file size exceeds the threshold; any
operator response other than the exact token `"y"` ends the file with
`file_too_big = true`, `are_values_found = false` and zero cell reads;
within the threshold no prompt appears and the cell scan proceeds. -/
theorem C2_size_gate (data : FileData) (resp : String) (vals : List String)
    (k : ℚ) (f : ExcelFile) (names : List String) (r : Option Bool)
    (temp1 : List String)
    (hn : (get_sheet_details data.container).1 = .ok names)
    (hm : match_values_in_files (names.map PyVal.str) vals = .ok (r, temp1))
    (hne : temp1 ≠ []) :
    ((processFile data resp true vals k f).prompted = true ↔ f.size > k)
  ∧ (f.size > k → resp ≠ "y" →
      processFile data resp true vals k f
        = ⟨none,
           { f with
              sheet_names := names
              file_too_big := true
              are_values_found := false },
           true, 0⟩)
  ∧ (¬ f.size > k →
      (processFile data resp true vals k f).prompted = false ∧
      (processFile data resp true vals k f).reads
        = (look_for_values_in_file data.rows names temp1).2) := by
  have hE : temp1.isEmpty = false := by
    cases temp1 with
    | nil => exact absurd rfl hne
    | cons a l => rfl
  rcases hlf : look_for_values_in_file data.rows names temp1 with ⟨res, n⟩
  refine ⟨?_, ?_, ?_⟩
  · by_cases hk : f.size > k
    · cases hy : resp == "y" with
      | true =>
        cases res with
        | error e => simp [processFile, hn, hm, hE, are_all_cells_in_file, hk, hy, hlf]
        | ok b => simp [processFile, hn, hm, hE, are_all_cells_in_file, hk, hy, hlf]
      | false => simp [processFile, hn, hm, hE, are_all_cells_in_file, hk, hy]
    · cases res with
      | error e => simp [processFile, hn, hm, hE, are_all_cells_in_file, hk, hlf]
      | ok b => simp [processFile, hn, hm, hE, are_all_cells_in_file, hk, hlf]
  · intro hk hresp
    have hy : (resp == "y") = false := beq_eq_false_iff_ne.mpr hresp
    simp [processFile, hn, hm, hE, are_all_cells_in_file, hk, hy]
  · intro hk
    cases res with
    | error e => simp [processFile, hn, hm, hE, are_all_cells_in_file, hk, hlf]
    | ok b => simp [processFile, hn, hm, hE, are_all_cells_in_file, hk, hlf]

/-- C2 (witness): a 5 MB two-sheet file against a 1 MB threshold with
operator answer "n": prompt shown, `file_too_big` set,
`are_values_found` false, zero cell reads. -/
theorem C2_witness :
    processFile
        ⟨ContainerState.manifest (some (SheetListing.many
            [⟨[("@sheetId", "1"), ("@name", "Sum")]⟩,
             ⟨[("@sheetId", "2"), ("@name", "Data")]⟩])),
         fun _ => .ok []⟩
        "n" true ["Q3"] 1 ⟨5, "big.xlsx", 5, false, false, []⟩
      = ⟨none, ⟨5, "big.xlsx", 5, false, true, ["Sum", "Data"]⟩, true, 0⟩ :=
  (C2_size_gate
      ⟨ContainerState.manifest (some (SheetListing.many
          [⟨[("@sheetId", "1"), ("@name", "Sum")]⟩,
           ⟨[("@sheetId", "2"), ("@name", "Data")]⟩])),
       fun _ => .ok []⟩
      "n" ["Q3"] 1 ⟨5, "big.xlsx", 5, false, false, []⟩ ["Sum", "Data"] none ["Q3"]
      rfl rfl (by decide)).2.1 (by decide) (by decide)

/-- C4: when matching against the fetched sheet names alone empties the
working target list, the file is marked found (`are_values_found = true`)
with no prompt and zero cell reads, whatever the cell-search flag is. -/
theorem C4_sheet_short_circuit (data : FileData) (resp : String) (sc : Bool)
    (vals : List String) (k : ℚ) (f : ExcelFile) (names : List String)
    (r : Option Bool)
    (hn : (get_sheet_details data.container).1 = .ok names)
    (hm : match_values_in_files (names.map PyVal.str) vals = .ok (r, [])) :
    processFile data resp sc vals k f
      = ⟨none, { f with sheet_names := names, are_values_found := true }, false, 0⟩ := by
  simp [processFile, hn, hm]

/-- C4 (witness): sheet name "Budget2024" satisfies target "Budget";
the cell scanner is never invoked although cell search was requested. -/
theorem C4_witness :
    processFile
        ⟨ContainerState.manifest (some (SheetListing.many
            [⟨[("@sheetId", "1"), ("@name", "Budget2024")]⟩,
             ⟨[("@sheetId", "2"), ("@name", "Data")]⟩])),
         fun _ => .ok []⟩
        "n" true ["Budget"] 1 ⟨0, "a.xlsx", mkRat 1 2, false, false, []⟩
      = ⟨none, ⟨0, "a.xlsx", mkRat 1 2, true, false, ["Budget2024", "Data"]⟩, false, 0⟩ :=
  C4_sheet_short_circuit
    ⟨ContainerState.manifest (some (SheetListing.many
        [⟨[("@sheetId", "1"), ("@name", "Budget2024")]⟩,
         ⟨[("@sheetId", "2"), ("@name", "Data")]⟩])),
     fun _ => .ok []⟩
    "n" true ["Budget"] 1 ⟨0, "a.xlsx", mkRat 1 2, false, false, []⟩
    ["Budget2024", "Data"] (some true) rfl rfl

/-- C3 (counterexample to the claim as stated): with two candidate files
whose manifests lack the sheet list, the run does not advance past the
first file: `find_values` propagates the manifest error, and the second
file is returned exactly as it came in — never processed, its
`sheet_names` never populated. -/
theorem C3_counterexample :
    find_values (fun _ => ⟨ContainerState.manifest none, fun _ => .ok []⟩)
        (fun _ => "y") true ["x"] 1
        [⟨0, "a.xlsx", 1, false, false, []⟩, ⟨1, "b.xlsx", 1, false, false, []⟩]
      = ([⟨0, "a.xlsx", 1, false, false, []⟩, ⟨1, "b.xlsx", 1, false, false, []⟩],
         some PyErr.manifestErr) := by decide

theorem are_all_cells_err_file (rows : String → Except PyErr (List (List PyVal)))
    (resp : String) (file : ExcelFile) (cells : List String) (k : ℚ) (e : PyErr)
    (h : (are_all_cells_in_file rows resp file cells k).result = .error e) :
    (are_all_cells_in_file rows resp file cells k).file = file := by
  by_cases hk : file.size > k
  · cases hy : resp == "y" with
    | true => simp [are_all_cells_in_file, hk, hy]
    | false => simp [are_all_cells_in_file, hk, hy] at h
  · simp [are_all_cells_in_file, hk]

theorem processFile_err_keeps_flags (data : FileData) (resp : String) (sc : Bool)
    (vals : List String) (k : ℚ) (f : ExcelFile) (e : PyErr)
    (h : (processFile data resp sc vals k f).err = some e) :
    (processFile data resp sc vals k f).file.are_values_found = f.are_values_found
  ∧ (processFile data resp sc vals k f).file.file_too_big = f.file_too_big := by
  cases h1 : (get_sheet_details data.container).1 with
  | error e2 => simp [processFile, h1]
  | ok names =>
    cases h2 : match_values_in_files (names.map PyVal.str) vals with
    | error e2 => simp [processFile, h1, h2]
    | ok rt =>
      obtain ⟨r, temp1⟩ := rt
      by_cases h3 : (!temp1.isEmpty && sc) = true
      · cases hres : (are_all_cells_in_file data.rows resp
            { f with sheet_names := names } temp1 k).result with
        | error e2 =>
          have hfe := are_all_cells_err_file data.rows resp
            { f with sheet_names := names } temp1 k e2 hres
          simp [processFile, h1, h2, h3, hres, hfe]
        | ok b =>
          exfalso
          simp [processFile, h1, h2, h3, hres] at h
      · by_cases h4 : temp1.isEmpty = true
        · exfalso
          simp [processFile, h1, h2, h4] at h
        · have h4f : temp1.isEmpty = false := by
            cases hb : temp1.isEmpty with
            | true => exact absurd hb h4
            | false => rfl
          have h3f : (!temp1.isEmpty && sc) = false := by
            cases hb : (!temp1.isEmpty && sc) with
            | true => exact absurd hb h3
            | false => rfl
          have hsc : sc = false := by
            rw [h4f] at h3f
            simpa using h3f
          exfalso
          simp [processFile, h1, h2, h4f, hsc] at h

/-- C3 (amended): no error raised while processing one file is caught
anywhere — a sheet-extraction failure (the ContainerError or
ManifestError kind) or a cell-scan failure (the ReadError kind, and
likewise the AttributeError of the matcher) escapes `find_values` and
aborts the run; the failing file keeps its incoming flags
(`are_values_found` and `file_too_big` unchanged, hence false for
discovery-default files) and every later file is left untouched and
unprocessed. -/
theorem C3_error_aborts_run (world : String → FileData)
    (responses : String → String) (sc : Bool) (vals : List String) (k : ℚ)
    (pre : List ExcelFile) (f : ExcelFile) (rest : List ExcelFile) (e : PyErr)
    (hpre : ∀ g ∈ pre,
      (processFile (world g.path) (responses g.path) sc vals k g).err = none)
    (hf : (processFile (world f.path) (responses f.path) sc vals k f).err = some e) :
    find_values world responses sc vals k (pre ++ f :: rest)
      = ((find_values world responses sc vals k pre).1
          ++ (processFile (world f.path) (responses f.path) sc vals k f).file :: rest,
         some e)
  ∧ (processFile (world f.path) (responses f.path) sc vals k f).file.are_values_found
      = f.are_values_found
  ∧ (processFile (world f.path) (responses f.path) sc vals k f).file.file_too_big
      = f.file_too_big := by
  refine ⟨?_, processFile_err_keeps_flags _ _ _ _ _ _ e hf⟩
  induction pre with
  | nil => simp [find_values, hf]
  | cons g pre ih =>
    have hg := hpre g (List.mem_cons_self g pre)
    have hrec := ih (fun x hx => hpre x (List.mem_cons_of_mem g hx))
    simp only [List.cons_append, find_values, List.append_eq, hg, hrec]

/-- C3 (witness): a `pd.read_excel` failure (the ReadError kind) during
the cell scan of the first file aborts the run with the second file
unprocessed; the failing file keeps both flags false, its sheet names
already populated. -/
theorem C3_witness :
    find_values
        (fun _ => ⟨ContainerState.manifest (some (SheetListing.many
            [⟨[("@sheetId", "1"), ("@name", "A")]⟩,
             ⟨[("@sheetId", "2"), ("@name", "B")]⟩])),
          fun _ => .error .readErr⟩)
        (fun _ => "y") true ["zzz"] 1
        [⟨0, "a.xlsx", mkRat 1 2, false, false, []⟩, ⟨1, "b.xlsx", 1, false, false, []⟩]
      = ([⟨0, "a.xlsx", mkRat 1 2, false, false, ["A", "B"]⟩,
          ⟨1, "b.xlsx", 1, false, false, []⟩],
         some PyErr.readErr) :=
  (C3_error_aborts_run
      (fun _ => ⟨ContainerState.manifest (some (SheetListing.many
          [⟨[("@sheetId", "1"), ("@name", "A")]⟩,
           ⟨[("@sheetId", "2"), ("@name", "B")]⟩])),
        fun _ => .error .readErr⟩)
      (fun _ => "y") true ["zzz"] 1 [] ⟨0, "a.xlsx", mkRat 1 2, false, false, []⟩
      [⟨1, "b.xlsx", 1, false, false, []⟩] PyErr.readErr
      (fun g hg => absurd hg (List.not_mem_nil g)) (by decide)).1.trans (by decide)

/-- C5: Scenario 3 of the spec run on the code.  Threshold 1.0 MB, size
0.3 MB, cell search requested, targets "42" and "Acme", a two-sheet
workbook (so the manifest parses as a list and sheet extraction
succeeds) whose first sheet holds a numeric cell rendering as "42.5"
next to a text cell "Acme Corp": the scan does not complete — the
removal pass calls `.find` on the raw numeric value and raises
`AttributeError` after one cell read (first conjunct).  With the same
cell contents as text, the intended outcome `are_values_found = true` is
produced (second conjunct), isolating the missing `str()` on line 85 as
the defect. -/
theorem C5_numeric_cell_raises :
    processFile
        ⟨ContainerState.manifest (some (SheetListing.many
            [⟨[("@sheetId", "1"), ("@name", "Sheet1")]⟩,
             ⟨[("@sheetId", "2"), ("@name", "Sheet2")]⟩])),
         fun _ => .ok [[PyVal.num "42.5", PyVal.str "Acme Corp"]]⟩
        "y" true ["42", "Acme"] 1 ⟨0, "f.xlsx", mkRat 3 10, false, false, []⟩
      = ⟨some PyErr.attrErr,
         ⟨0, "f.xlsx", mkRat 3 10, false, false, ["Sheet1", "Sheet2"]⟩, false, 1⟩
  ∧ processFile
        ⟨ContainerState.manifest (some (SheetListing.many
            [⟨[("@sheetId", "1"), ("@name", "Sheet1")]⟩,
             ⟨[("@sheetId", "2"), ("@name", "Sheet2")]⟩])),
         fun _ => .ok [[PyVal.str "42.5", PyVal.str "Acme Corp"]]⟩
        "y" true ["42", "Acme"] 1 ⟨0, "f.xlsx", mkRat 3 10, false, false, []⟩
      = ⟨none, ⟨0, "f.xlsx", mkRat 3 10, true, false, ["Sheet1", "Sheet2"]⟩,
         false, 1⟩ := by
  constructor <;> decide

theorem are_all_cells_flag (rows : String → Except PyErr (List (List PyVal)))
    (resp : String) (file : ExcelFile) (cells : List String) (k : ℚ)
    (hbig : file.file_too_big = false)
    (hres : (are_all_cells_in_file rows resp file cells k).result ≠ .ok false) :
    (are_all_cells_in_file rows resp file cells k).file.file_too_big = false := by
  by_cases hk : file.size > k
  · cases hy : resp == "y" with
    | true =>
      simp only [are_all_cells_in_file, hk, hy, if_true, if_pos]
      exact hbig
    | false =>
      exfalso
      apply hres
      simp [are_all_cells_in_file, hk, hy]
  · simp only [are_all_cells_in_file, hk, if_neg, if_false]
    exact hbig

theorem processFile_flags (data : FileData) (resp : String) (sc : Bool)
    (vals : List String) (k : ℚ) (f : ExcelFile) (hbig : f.file_too_big = false) :
    ¬ ((processFile data resp sc vals k f).file.are_values_found = true
       ∧ (processFile data resp sc vals k f).file.file_too_big = true) := by
  cases h1 : (get_sheet_details data.container).1 with
  | error e => simp [processFile, h1, hbig]
  | ok names =>
    cases h2 : match_values_in_files (names.map PyVal.str) vals with
    | error e => simp [processFile, h1, h2, hbig]
    | ok rt =>
      obtain ⟨r, temp1⟩ := rt
      by_cases h3 : (!temp1.isEmpty && sc) = true
      · cases hres : (are_all_cells_in_file data.rows resp
            { f with sheet_names := names } temp1 k).result with
        | error e =>
          have hb2 : (are_all_cells_in_file data.rows resp
              { f with sheet_names := names } temp1 k).file.file_too_big = false := by
            apply are_all_cells_flag _ _ _ _ _ (by simp [hbig])
            rw [hres]
            simp
          simp [processFile, h1, h2, h3, hres, hb2]
        | ok b =>
          cases b with
          | true =>
            have hb2 : (are_all_cells_in_file data.rows resp
                { f with sheet_names := names } temp1 k).file.file_too_big = false := by
              apply are_all_cells_flag _ _ _ _ _ (by simp [hbig])
              rw [hres]
              simp
            simp [processFile, h1, h2, h3, hres, hb2]
          | false => simp [processFile, h1, h2, h3, hres]
      · by_cases h4 : temp1.isEmpty = true
        · simp [processFile, h1, h2, h4, hbig]
        · have h4f : temp1.isEmpty = false := by
            cases hb : temp1.isEmpty with
            | true => exact absurd hb h4
            | false => rfl
          have h3f : (!temp1.isEmpty && sc) = false := by
            cases hb : (!temp1.isEmpty && sc) with
            | true => exact absurd hb h3
            | false => rfl
          have hsc : sc = false := by
            rw [h4f] at h3f
            simpa using h3f
          simp [processFile, h1, h2, h4f, hsc, hbig]

/-- C6: over any run of `find_values` on candidate files that enter with
the discovery-time default flags, no file ever ends with
`are_values_found` and `file_too_big` both true, on any execution path
(sheet-name match, cell scan accepted or declined, cell search not
requested, or a per-file error). -/
theorem C6_flags_exclusive (world : String → FileData)
    (responses : String → String) (sc : Bool) (vals : List String) (k : ℚ)
    (files : List ExcelFile)
    (h : ∀ f ∈ files, f.are_values_found = false ∧ f.file_too_big = false) :
    ∀ g ∈ (find_values world responses sc vals k files).1,
      ¬ (g.are_values_found = true ∧ g.file_too_big = true) := by
  induction files with
  | nil =>
    intro g hg
    exact absurd hg (by simp [find_values])
  | cons f rest ih =>
    intro g hg
    have hf := (h f (List.mem_cons_self f rest)).2
    simp only [find_values] at hg
    cases hst : (processFile (world f.path) (responses f.path) sc vals k f).err with
    | some e =>
      rw [hst] at hg
      simp only at hg
      rcases List.mem_cons.mp hg with h1 | h2
      · subst h1
        exact processFile_flags _ _ _ _ _ _ hf
      · intro hcon
        have := (h g (List.mem_cons_of_mem f h2)).2
        rw [this] at hcon
        exact Bool.noConfusion hcon.2
    | none =>
      rw [hst] at hg
      simp only at hg
      rcases List.mem_cons.mp hg with h1 | h2
      · subst h1
        exact processFile_flags _ _ _ _ _ _ hf
      · exact ih (fun x hx => h x (List.mem_cons_of_mem f hx)) g h2

/-- C6 (witness): the invariant instantiated on a concrete declined-scan
run whose output file has `file_too_big = true` and hence
`are_values_found = false`. -/
theorem C6_witness :
    ¬ ((⟨0, "a.xlsx", 5, false, true, ["S", "T"]⟩ : ExcelFile).are_values_found = true
       ∧ (⟨0, "a.xlsx", 5, false, true, ["S", "T"]⟩ : ExcelFile).file_too_big = true) :=
  C6_flags_exclusive
    (fun _ => ⟨ContainerState.manifest (some (SheetListing.many
        [⟨[("@sheetId", "1"), ("@name", "S")]⟩,
         ⟨[("@sheetId", "2"), ("@name", "T")]⟩])),
      fun _ => .ok []⟩)
    (fun _ => "n") true ["x"] 1 [⟨0, "a.xlsx", 5, false, false, []⟩]
    (by decide) ⟨0, "a.xlsx", 5, false, true, ["S", "T"]⟩ (by decide)

/-- C7 (counterexample to the claim as stated): on the parse-failure
exit (manifest without a sheet list) the temporary extraction area
persists (second component `true`), so cleanup is not guaranteed on all
exit paths. -/
theorem C7_counterexample :
    get_sheet_details (ContainerState.manifest none)
      = (.error .manifestErr, true) := rfl

/-- C7 (amended): the temporary extraction area is removed exactly on
the success exit of `get_sheet_details`; on every failing exit
(container, manifest or parse failure) it persists. -/
theorem C7_cleanup_iff_success (c : ContainerState) :
    (get_sheet_details c).2 = false ↔ ∃ names, (get_sheet_details c).1 = .ok names := by
  cases c with
  | notZip => simp [get_sheet_details]
  | missingManifest => simp [get_sheet_details]
  | manifest o =>
    cases o with
    | none => simp [get_sheet_details]
    | some listing =>
      cases listing with
      | one sheet => simp [get_sheet_details]
      | many sheets =>
        cases hs : sheetsFold sheets with
        | error e => simp [get_sheet_details, hs]
        | ok names => simp [get_sheet_details, hs]

/-- C7 (witness): a successful two-sheet extraction does clean the area
up. -/
theorem C7_witness :
    (get_sheet_details (ContainerState.manifest (some (SheetListing.many
        [⟨[("@sheetId", "1"), ("@name", "A")]⟩,
         ⟨[("@sheetId", "2"), ("@name", "B")]⟩])))).2 = false :=
  (C7_cleanup_iff_success (ContainerState.manifest (some (SheetListing.many
      [⟨[("@sheetId", "1"), ("@name", "A")]⟩,
       ⟨[("@sheetId", "2"), ("@name", "B")]⟩])))).mpr ⟨["A", "B"], by decide⟩

theorem sheetsFold_ok : ∀ sheets : List XmlSheet,
    (∀ s ∈ sheets, ((List.lookup "@sheetId" s.attrs).isSome = true)
        ∧ ((List.lookup "@name" s.attrs).isSome = true)) →
    sheetsFold sheets
      = .ok (sheets.map (fun s => (List.lookup "@name" s.attrs).getD "")) := by
  intro sheets
  induction sheets with
  | nil => intro _; rfl
  | cons s rest ih =>
    intro h
    obtain ⟨hid, hname⟩ := h s (List.mem_cons_self s rest)
    obtain ⟨i, hi⟩ := Option.isSome_iff_exists.mp hid
    obtain ⟨n, hn⟩ := Option.isSome_iff_exists.mp hname
    have hrest := ih (fun x hx => h x (List.mem_cons_of_mem s hx))
    simp only [sheetsFold, sheetEntryName, hi, hn, hrest, List.map_cons]
    simp [hn]

/-- C8 (counterexample to the claim as stated): the unprefixed attribute
forms `sheetId` / `name` are not accepted — a two-sheet manifest using
them fails at the `'@sheetId'` lookup with `KeyError` instead of
returning the names (first conjunct); and even a fully prefixed
well-formed manifest with a single sheet is not handled: xmltodict
yields a dict there, line 46 iterates its attribute keys, and line 48
raises `TypeError` (second conjunct). -/
theorem C8_counterexample :
    get_sheet_details (ContainerState.manifest (some (SheetListing.many
        [⟨[("name", "Sheet1"), ("sheetId", "1")]⟩,
         ⟨[("name", "Sheet2"), ("sheetId", "2")]⟩])))
      = (.error .manifestErr, true)
  ∧ get_sheet_details (ContainerState.manifest (some (SheetListing.one
        ⟨[("@sheetId", "1"), ("@name", "Sheet1")]⟩)))
      = (.error .typeErr, true) := ⟨rfl, rfl⟩

/-- C8 (amended): only multi-sheet manifests are handled, and only the
namespace-prefixed attribute forms are read: for every manifest whose
sheet entry repeats (so that xmltodict yields a list) with each entry
carrying both `'@sheetId'` and `'@name'`, the inspector returns the
`'@name'` values in document order (first conjunct); the unprefixed
forms are never consulted, and a single-sheet manifest always raises
`TypeError` before any name is extracted (second conjunct). -/
theorem C8_prefixed_names_only (sheets : List XmlSheet) (sheet : XmlSheet)
    (h : ∀ s ∈ sheets, ((List.lookup "@sheetId" s.attrs).isSome = true)
        ∧ ((List.lookup "@name" s.attrs).isSome = true)) :
    (get_sheet_details (ContainerState.manifest (some (SheetListing.many sheets)))).1
      = .ok (sheets.map (fun s => (List.lookup "@name" s.attrs).getD ""))
  ∧ get_sheet_details (ContainerState.manifest (some (SheetListing.one sheet)))
      = (.error .typeErr, true) := by
  constructor
  · simp [get_sheet_details, sheetsFold_ok sheets h]
  · rfl

/-- C8 (witness): two prefixed sheet entries yield their display names
in document order. -/
theorem C8_witness :
    (get_sheet_details (ContainerState.manifest (some (SheetListing.many
        [⟨[("@sheetId", "1"), ("@name", "Summary")]⟩,
         ⟨[("@sheetId", "2"), ("@name", "Budget2024")]⟩])))).1
      = .ok ["Summary", "Budget2024"] :=
  (C8_prefixed_names_only
    [⟨[("@sheetId", "1"), ("@name", "Summary")]⟩,
     ⟨[("@sheetId", "2"), ("@name", "Budget2024")]⟩]
    ⟨[("@sheetId", "1"), ("@name", "Solo")]⟩
    (by decide)).1
